import Mathlib

/-!
Verification of `control_logic_delay` (OpenRAM, delay-based control logic
variant), shallowly embedded from `compiler/modules/control_logic_delay.py`
with the bank-level address arithmetic of
`compiler/modules/rom_base_bank.py`.

Pure Python computations become Lean functions; machine floats used by the
source only at power-of-two arguments (`math.log(x, 2)`) are modelled exactly
with `Nat.log`; fatal `debug.check` calls become `Option`/`Except` failures;
the geometric side effects of routing helpers are modelled as unit results,
keeping only their control flow and name resolution.
-/

namespace ControlLogicDelay

/-- Port type tag of the control logic: read-write, read-only or write-only
(`port_type` ∈ {"rw", "r", "w"} in the source). -/
inductive PortType where
  | rw : PortType
  | r : PortType
  | w : PortType
deriving DecidableEq, Repr

open PortType

/-- Source `self.num_control_signals` from `__init__`: 2 for "rw", otherwise 1. -/
def numControlSignals (pt : PortType) : Nat :=
  if pt = rw then 2 else 1

/-- Source `if not spare_columns: self.num_spare_cols = 0 else: ... = spare_columns`
(Python falsy `None`/`0` both give 0). -/
def numSpareCols (spare_columns : Option Nat) : Nat :=
  match spare_columns with
  | none => 0
  | some n => n

/-- Structural parameters of one `control_logic_delay` instantiation. -/
structure Config where
  num_rows : Nat
  words_per_row : Nat
  word_size : Nat
  spare_columns : Option Nat
  port_type : PortType
deriving DecidableEq, Repr

/-- Source `self.num_words = num_rows * words_per_row`. -/
def Config.num_words (c : Config) : Nat := c.num_rows * c.words_per_row

/-- Source `self.num_cols = word_size * words_per_row + self.num_spare_cols`. -/
def Config.num_cols (c : Config) : Nat :=
  c.word_size * c.words_per_row + numSpareCols c.spare_columns

/-- Source `self.input_list` from `setup_signal_busses`. -/
def inputList (pt : PortType) : List String :=
  if pt = rw then ["csb", "web"] else ["csb"]

/-- Source `self.dff_output_list` from `setup_signal_busses`. -/
def dffOutputList (pt : PortType) : List String :=
  if pt = rw then ["cs_bar", "cs", "we_bar", "we"] else ["cs_bar", "cs"]

/-- Source `self.internal_bus_list` from `setup_signal_busses`. -/
def internalBusList (pt : PortType) : List String :=
  if pt = rw then
    ["glitch2", "glitch3", "delay1", "delay2", "delay3", "delay4", "delay5",
     "gated_clk_bar", "gated_clk_buf", "we", "we_bar", "clk_buf", "cs"]
  else
    ["glitch2", "glitch3", "delay1", "delay2", "delay3", "delay4", "delay5",
     "gated_clk_bar", "gated_clk_buf", "clk_buf", "cs"]

/-- Source `self.output_list` from `setup_signal_busses`: the port-dependent part,
then `p_en_bar`, `wl_en`, `clk_buf` appended. -/
def outputList (pt : PortType) : List String :=
  (match pt with
   | rw => ["s_en", "w_en"]
   | r => ["s_en"]
   | w => ["w_en"]) ++ ["p_en_bar", "wl_en", "clk_buf"]

/-- Pin directions used by `add_pin`/`add_pin_list`. -/
inductive PinDir where
  | input : PinDir
  | output : PinDir
  | power : PinDir
  | ground : PinDir
deriving DecidableEq, Repr

/-- Source `add_pins`: inputs are `input_list + ["clk"]`, outputs are `output_list`,
then `vdd` (POWER) and `gnd` (GROUND), in source order. -/
def pinList (pt : PortType) : List (String × PinDir) :=
  (inputList pt ++ ["clk"]).map (fun n => (n, PinDir.input))
    ++ (outputList pt).map (fun n => (n, PinDir.output))
    ++ [("vdd", PinDir.power), ("gnd", PinDir.ground)]

/-- Names of the module pins, in declaration order. -/
def pinNames (pt : PortType) : List String := (pinList pt).map Prod.fst

/-- One netlist instance: its name and the ordered net names bound to the
child's pins (`add_inst` followed by `connect_inst`). -/
structure Inst where
  name : String
  conns : List String
deriving DecidableEq, Repr

/-- Source `create_dffs`: the control flop array instance and its connections
(`input_list + dff_output_list + ["clk_buf"] + supply_list`). -/
def ctrlDffsInst (pt : PortType) : Inst :=
  ⟨"ctrl_dffs", inputList pt ++ dffOutputList pt ++ ["clk_buf"] ++ ["vdd", "gnd"]⟩

/-- Source `create_wen_row` input signal: `we` for "rw", else `cs`. -/
def wenInputName (pt : PortType) : String :=
  if pt = rw then "we" else "cs"

/-- Source `create_sen_row` input signal: `we_bar` for "rw", else `cs`. -/
def senInputName (pt : PortType) : String :=
  if pt = rw then "we_bar" else "cs"

/-- Source `create_instances`: all instances in creation order, with the
write-enable row only for "rw"/"w" ports and the sense-enable row only for
"rw"/"r" ports. -/
def instanceList (pt : PortType) : List Inst :=
  [ctrlDffsInst pt,
   ⟨"clkbuf", ["clk", "clk_buf", "vdd", "gnd"]⟩,
   ⟨"inv_clk_bar", ["clk_buf", "clk_bar", "vdd", "gnd"]⟩,
   ⟨"and2_gated_clk_bar", ["clk_bar", "cs", "gated_clk_bar", "vdd", "gnd"]⟩,
   ⟨"and2_gated_clk_buf", ["clk_buf", "cs", "gated_clk_buf", "vdd", "gnd"]⟩,
   ⟨"multi_delay_chain",
    ["gated_clk_buf", "delay1", "delay2", "delay3", "delay4", "delay5", "vdd", "gnd"]⟩,
   ⟨"nand2_glitch1", ["delay1", "delay3", "glitch1", "vdd", "gnd"]⟩,
   ⟨"nand2_glitch2", ["gated_clk_buf", "delay4", "glitch2", "vdd", "gnd"]⟩,
   ⟨"nand2_glitch3", ["delay2", "delay5", "glitch3", "vdd", "gnd"]⟩,
   ⟨"and_wl_en_unbuf", ["cs", "glitch2", "wl_en_unbuf", "vdd", "gnd"]⟩,
   ⟨"buf_wl_en", ["wl_en_unbuf", "wl_en", "vdd", "gnd"]⟩]
  ++ (if pt = rw ∨ pt = w then
        [⟨"inv_glitch3_bar", ["glitch3", "glitch3_bar", "vdd", "gnd"]⟩,
         ⟨"and_w_en", [wenInputName pt, "glitch2", "glitch3_bar", "w_en", "vdd", "gnd"]⟩]
      else [])
  ++ (if pt = rw ∨ pt = r then
        [⟨"and_s_en", ["glitch3", "gated_clk_bar", senInputName pt, "s_en", "vdd", "gnd"]⟩]
      else [])
  ++ [⟨"buf_p_en_bar", ["glitch1", "p_en_bar", "vdd", "gnd"]⟩]

/-- Names of created instances, in creation order. -/
def instanceNames (pt : PortType) : List String := (instanceList pt).map Inst.name

/-- Source `add_modules`: the control flop array has `rows=num_control_signals` and
`columns=1`, so it holds that many storage elements. -/
def ctrlDffArrayStorageCount (pt : PortType) : Nat := numControlSignals pt * 1

/-- The result of `create_netlist` that C10 ranges over: ordered pin list and
ordered instance list with connections. -/
structure Netlist where
  pins : List (String × PinDir)
  insts : List Inst
deriving DecidableEq, Repr

/-- Source `create_netlist` (names-and-order content): `setup_signal_busses` then
`add_pins` then `create_instances`, all functions of the configuration alone. -/
def create_netlist (c : Config) : Netlist :=
  ⟨pinList c.port_type, instanceList c.port_type⟩

/-! ### Clock-buffer flop count (`add_modules` lines 99–105)

The source computes
`addr_flops = math.log(self.num_words, 2) + math.log(self.words_per_row, 2)`.
The system requires power-of-two dimensions, and at a power-of-two argument
`math.log(x, 2)` is the exact integer logarithm, so it is modelled with
`Nat.log 2`; the theorems about it restrict to power-of-two inputs. -/

/-- Source `add_modules` line 100: the address-flop term
`math.log(num_words, 2) + math.log(words_per_row, 2)` (exact at power-of-two
arguments). -/
def addr_flops (num_words words_per_row : Nat) : Nat :=
  Nat.log 2 num_words + Nat.log 2 words_per_row

/-- Source `add_modules` line 102: the number of flops driven by the clock
buffer, `addr_flops + word_size + num_spare_cols + num_control_signals`. -/
def num_flops (c : Config) : Nat :=
  addr_flops c.num_words c.words_per_row + c.word_size
    + numSpareCols c.spare_columns + numControlSignals c.port_type

/-- Modelled from the spec: number of address bits =
`ceil(log2(row count)) + ceil(log2(words-per-row))`, and number of
synchronizing storage elements = address bits + word size + spare columns +
control-signal count. -/
def num_flops_spec (c : Config) : Nat :=
  (Nat.clog 2 c.num_rows + Nat.clog 2 c.words_per_row) + c.word_size
    + numSpareCols c.spare_columns + numControlSignals c.port_type

/-! ### Layout control flow (`create_layout` / `route_all`)

Each routing helper is modelled by its outcome: geometric side effects are
unit results, and a body that references an unbound Python name is a
`NameError`. All names referenced by the other helpers resolve to attributes
set earlier in the build, so those helpers are modelled as succeeding. -/

/-- A fatal Python exception escaping a phase. -/
inductive PyErr where
  | nameError (missing : String) : PyErr
deriving DecidableEq, Repr

/-- Source `route_rails`: builds the vertical input bus; every referenced name is
bound. -/
def route_rails : Except PyErr Unit := pure ()

/-- Source `route_dffs`: every referenced name is bound. -/
def route_dffs : Except PyErr Unit := pure ()

/-- Source `route_wlen`: every referenced name is bound. -/
def route_wlen : Except PyErr Unit := pure ()

/-- Source `route_wen`: every referenced name is bound. -/
def route_wen : Except PyErr Unit := pure ()

/-- Source `route_sen`: every referenced name is bound. -/
def route_sen : Except PyErr Unit := pure ()

/-- Source `route_delay`: its body evaluates
`slef.connect_vertical_bus(delay_map, self.delay_inst, self.input_bus)`, and
`slef` is bound nowhere, so the call raises `NameError` unconditionally. -/
def route_delay : Except PyErr Unit := .error (.nameError "slef")

/-- Source `route_pen`: every referenced name is bound. -/
def route_pen : Except PyErr Unit := pure ()

/-- Source `route_clk_buf`: every referenced name is bound. -/
def route_clk_buf : Except PyErr Unit := pure ()

/-- Source `route_gated_clk_bar`: every referenced name is bound. -/
def route_gated_clk_bar : Except PyErr Unit := pure ()

/-- Source `route_gated_clk_buf`: every referenced name is bound. -/
def route_gated_clk_buf : Except PyErr Unit := pure ()

/-- Source `route_supply`: every referenced name is bound. -/
def route_supply : Except PyErr Unit := pure ()

/-- Source `route_all`: the routing steps in source order, with the write-enable
route only for "rw"/"w" ports and the sense-enable route only for "rw"/"r"
ports. -/
def route_all (pt : PortType) : Except PyErr Unit := do
  route_rails
  route_dffs
  route_wlen
  if pt = rw ∨ pt = w then route_wen else pure ()
  if pt = rw ∨ pt = r then route_sen else pure ()
  route_delay
  route_pen
  route_clk_buf
  route_gated_clk_bar
  route_gated_clk_buf
  route_supply

/-- Source `place_instances`: places flops, logic rows and the delay chain; every
referenced name is bound. -/
def place_instances : Except PyErr Unit := pure ()

/-- Source `add_boundary` (from the design base class): succeeds. -/
def add_boundary : Except PyErr Unit := pure ()

/-- Source `DRC_LVS` (verification gateway): reached only if routing completed. -/
def DRC_LVS : Except PyErr Unit := pure ()

/-- Source `create_layout`: place, route, add boundary, verify — run only when
`OPTS.netlist_only` is false. -/
def create_layout (pt : PortType) : Except PyErr Unit := do
  place_instances
  route_all pt
  add_boundary
  DRC_LVS

/-! ### Sizing (`calculate_stages_with_fixed_fanout`,
`get_dynamic_delay_chain_size`) -/

/-- Source `calculate_stages_with_fixed_fanout(required_delay, fanout)`: one stage
when the required delay is at most the minimum per-stage delay `3 + pinv`,
otherwise `ceil(required_delay / (fanout + 1 + pinv))`. -/
def calculate_stages_with_fixed_fanout (pinv required_delay fanout : ℚ) : ℤ :=
  if required_delay ≤ 3 + pinv then 1
  else ⌈required_delay / (fanout + 1 + pinv)⌉

/-- The per-instance timing attributes read by
`get_dynamic_delay_chain_size` (`self.inv_parasitic_delay`, `self.wl_delay`,
`self.sen_delay`, `self.wl_timing_tolerance`). -/
structure DelayCtx where
  pinv : ℚ
  wl_delay : ℚ
  sen_delay : ℚ
  wl_timing_tolerance : ℚ
deriving DecidableEq, Repr

/-- Source `get_dynamic_delay_chain_size(previous_stages, previous_fanout)`:
computes the required delay, checks it is positive (a fatal `debug.check`,
modelled as `none`), takes `ceil(required / (3 + 1 + pinv))` stages and then
forces an even stage count (`if delay_stages % 2 == 1: delay_stages += 1`),
returning `(stages, fanout)` with `delay_fanout = 3`. -/
def get_dynamic_delay_chain_size (ctx : DelayCtx)
    (previous_stages previous_fanout : ℚ) : Option (ℤ × ℚ) :=
  let previous_delay_chain_delay :=
    (previous_fanout + 1 + ctx.pinv) * previous_stages
  let delay_fanout : ℚ := 3
  let required_delay :=
    ctx.wl_delay * ctx.wl_timing_tolerance
      - (ctx.sen_delay - previous_delay_chain_delay)
  if 0 < required_delay then
    let delay_per_stage := delay_fanout + 1 + ctx.pinv
    let delay_stages := ⌈required_delay / delay_per_stage⌉
    let delay_stages' := if delay_stages % 2 = 1 then delay_stages + 1 else delay_stages
    some (delay_stages', delay_fanout)
  else
    none

/-- Source `add_modules` line 151:
`debug.check(OPTS.delay_chain_stages % 2, "Must use odd number of delay chain
stages for inverting delay chain.")` — the check passes iff the configured
stage count is odd. -/
def delay_chain_stages_check (delay_chain_stages : Nat) : Bool :=
  delay_chain_stages % 2 ≠ 0

/-! ### Placement offsets (`get_offset`, `place_util`) -/

/-- Instance orientation: identity (`"R0"`) or mirrored about the x axis
(`"MX"`). -/
inductive Orient where
  | R0 : Orient
  | MX : Orient
deriving DecidableEq, Repr

/-- Source `get_offset(row)`: `y_off = row * self.and2.height`, and odd rows add one
more `and2.height` and are mirrored about x. `h` is the unit row height
(`self.and2.height`). -/
def get_offset (h : ℚ) (row : Nat) : ℚ × Orient :=
  let y_off := (row : ℚ) * h
  if row % 2 ≠ 0 then (y_off + h, Orient.MX) else (y_off, Orient.R0)

/-- A placed instance: lower-left x, y offset, orientation, width. -/
structure Placed where
  x : ℚ
  y : ℚ
  mirror : Orient
  width : ℚ
deriving DecidableEq, Repr

/-- The right edge (`inst.rx()`) of a placed instance. -/
def Placed.rx (p : Placed) : ℚ := p.x + p.width

/-- Source `place_util(inst, x_offset, row)`: places the instance at
`(x_offset, get_offset(row))` and returns `x_offset + inst.width`, the next
x offset in the row. `w` is the instance width. -/
def place_util (h : ℚ) (x_offset : ℚ) (row : Nat) (w : ℚ) : Placed × ℚ :=
  let yo := get_offset h row
  (⟨x_offset, yo.1, yo.2, w⟩, x_offset + w)

/-! ### Row placement and module width (`place_instances`, `place_delay`) -/

/-- Physical dimensions read from the technology/cell catalog during
placement: the control flop array width, wiring pitches, and the width of
each row cell. -/
structure LayoutParams where
  dff_array_width : ℚ
  m2_pitch : ℚ
  w_clk_buf_driver : ℚ
  w_inv : ℚ
  w_and2 : ℚ
  w_sen_and3 : ℚ
  w_wen_and : ℚ
  w_nand2 : ℚ
  w_p_en_bar_driver : ℚ
  w_wl_en_and : ℚ
  w_wl_en_driver : ℚ
  w_multi_delay_chain : ℚ
deriving DecidableEq, Repr

/-- Source `setup_signal_busses` line 267:
`internal_bus_width = (len(internal_bus_list) + 1) * m2_pitch`. -/
def internal_bus_width (p : LayoutParams) (pt : PortType) : ℚ :=
  (((internalBusList pt).length + 1 : Nat) : ℚ) * p.m2_pitch

/-- Source `place_instances` line 317:
`control_x_offset = ctrl_dff_array.width + internal_bus_width`. -/
def control_x_offset (p : LayoutParams) (pt : PortType) : ℚ :=
  p.dff_array_width + internal_bus_width p pt

/-- Instance widths of each placed logic row, in placement order
(`place_clk_buf_row` … `place_glitch3_row`): the sense row exists only for
"rw"/"r" and the write row only for "rw"/"w". -/
def rowWidths (p : LayoutParams) (pt : PortType) : List (List ℚ) :=
  [[p.w_clk_buf_driver],
   [p.w_inv, p.w_and2],
   [p.w_and2]]
  ++ (if pt = rw ∨ pt = r then [[p.w_sen_and3]] else [])
  ++ (if pt = rw ∨ pt = w then [[p.w_inv, p.w_wen_and]] else [])
  ++ [[p.w_nand2, p.w_p_en_bar_driver],
      [p.w_wl_en_and, p.w_wl_en_driver],
      [p.w_nand2],
      [p.w_nand2]]

/-- Right edges of the instances of one row placed left-to-right from `x0` by
repeated `place_util` calls (each x offset is the previous right edge). -/
def rowRX (x0 : ℚ) : List ℚ → List ℚ
  | [] => []
  | wid :: rest => (x0 + wid) :: rowRX (x0 + wid) rest

/-- Right edges of all row instances over all logic rows. -/
def allRowInstRX (p : LayoutParams) (pt : PortType) : List ℚ :=
  (rowWidths p pt).foldr (fun row acc => rowRX (control_x_offset p pt) row ++ acc) []

/-- Right edge of the last (row-end) instance of each row: the values the
source keeps in `row_end_inst` and maximizes over. -/
def rowEndRX (p : LayoutParams) (pt : PortType) : List ℚ :=
  (rowWidths p pt).map (fun row => control_x_offset p pt + row.sum)

/-- Python `max` over a (nonempty) list. -/
def pyMax (l : List ℚ) : ℚ := l.foldl max (l.headD 0)

/-- Source `place_delay`: the delay chain is placed at x offset 0, so its
right edge is its width. -/
def delayRX (p : LayoutParams) : ℚ := 0 + p.w_multi_delay_chain

/-- Source `place_dffs`: the control flop array is placed at (0, 0), so its
right edge is its width. -/
def dffRX (p : LayoutParams) : ℚ := 0 + p.dff_array_width

/-- Source `place_instances` lines 352–358: module width is the maximum
row-end right edge, additionally maximized with the delay chain's right edge
only for "rw"/"r" ports, plus one `m2_pitch`. -/
def moduleWidth (p : LayoutParams) (pt : PortType) : ℚ :=
  (if pt = rw ∨ pt = r then max (delayRX p) (pyMax (rowEndRX p pt))
   else pyMax (rowEndRX p pt)) + p.m2_pitch

/-- Right edges of every placed instance: the control flop array, every row
instance, and the delay chain. -/
def placedRX (p : LayoutParams) (pt : PortType) : List ℚ :=
  dffRX p :: allRowInstRX p pt ++ [delayRX p]

/-- All the placement inputs that are physically nonnegative: cell widths and
the wiring pitch. -/
def LayoutParams.Nonneg (p : LayoutParams) : Prop :=
  0 ≤ p.dff_array_width ∧ 0 ≤ p.m2_pitch ∧ 0 ≤ p.w_clk_buf_driver ∧
  0 ≤ p.w_inv ∧ 0 ≤ p.w_and2 ∧ 0 ≤ p.w_sen_and3 ∧ 0 ≤ p.w_wen_and ∧
  0 ≤ p.w_nand2 ∧ 0 ≤ p.w_p_en_bar_driver ∧ 0 ≤ p.w_wl_en_and ∧
  0 ≤ p.w_wl_en_driver ∧ 0 ≤ p.w_multi_delay_chain

/-! ### Supply routing (`route_all`, `route_supply`) -/

/-- The routing steps of `route_all`, as an ordered list. -/
inductive RouteStep where
  | rails | dffs | wlen | wen | sen | delayChain | pen
  | clkBuf | gatedClkBar | gatedClkBuf | supply
deriving DecidableEq, Repr

/-- Source `route_all`: the routing steps in source order (write-enable route
only for "rw"/"w", sense route only for "rw"/"r"), ending with
`route_supply`. -/
def route_all_steps (pt : PortType) : List RouteStep :=
  [RouteStep.rails, RouteStep.dffs, RouteStep.wlen]
  ++ (if pt = rw ∨ pt = w then [RouteStep.wen] else [])
  ++ (if pt = rw ∨ pt = r then [RouteStep.sen] else [])
  ++ [RouteStep.delayChain, RouteStep.pen, RouteStep.clkBuf,
      RouteStep.gatedClkBar, RouteStep.gatedClkBuf, RouteStep.supply]

/-- Names of all placed instances, in `place_instances` order: the flop
array, the logic rows (sense row for "rw"/"r", write row for "rw"/"w"), and
the delay chain. -/
def placedInstNames (pt : PortType) : List String :=
  ["ctrl_dffs", "clkbuf", "inv_clk_bar", "and2_gated_clk_bar",
   "and2_gated_clk_buf"]
  ++ (if pt = rw ∨ pt = r then ["and_s_en"] else [])
  ++ (if pt = rw ∨ pt = w then ["inv_glitch3_bar", "and_w_en"] else [])
  ++ ["nand2_glitch1", "buf_p_en_bar", "and_wl_en_unbuf", "buf_wl_en",
      "nand2_glitch2", "nand2_glitch3", "multi_delay_chain"]

/-- Source `row_end_inst`: the instances appended by the `place_*_row`
helpers, whose supply pins `route_supply` walks and ties to the rail at the
maximal row-end x location. -/
def rowEndInstNames (pt : PortType) : List String :=
  ["clkbuf", "and2_gated_clk_bar", "and2_gated_clk_buf"]
  ++ (if pt = rw ∨ pt = r then ["and_s_en"] else [])
  ++ (if pt = rw ∨ pt = w then ["and_w_en"] else [])
  ++ ["buf_p_en_bar", "buf_wl_en", "nand2_glitch2", "nand2_glitch3"]

/-- Source `route_supply` lines 755–759: the delay chain and flop array only
have their existing supply pins copied up as layout pins; they are not walked
and tied to the row-end rail. -/
def supplyPinCopiedInstNames : List String := ["multi_delay_chain", "ctrl_dffs"]

/-- Every right edge produced by placing a row of nonnegative-width cells
left-to-right from `x0` is at most the row-end right edge `x0 + sum`. -/
theorem rowRX_le_end (l : List ℚ) (x0 : ℚ) (h : ∀ x ∈ l, 0 ≤ x) :
    ∀ y ∈ rowRX x0 l, y ≤ x0 + l.sum := by
  induction l generalizing x0 with
  | nil => intro y hy; simp [rowRX] at hy
  | cons wv rest ih =>
    intro y hy
    have hrest : ∀ x ∈ rest, 0 ≤ x := fun x hx => h x (List.mem_cons_of_mem _ hx)
    rcases List.mem_cons.mp hy with rfl | hy
    · have hs : 0 ≤ rest.sum := List.sum_nonneg hrest
      simp only [List.sum_cons]
      linarith
    · have := ih (x0 + wv) hrest y hy
      simp only [List.sum_cons]
      linarith

/-- A left fold of `max` dominates its seed and every list element. -/
theorem foldl_max_bounds (l : List ℚ) (init : ℚ) :
    init ≤ l.foldl max init ∧ ∀ y ∈ l, y ≤ l.foldl max init := by
  induction l generalizing init with
  | nil => exact ⟨le_refl _, by simp⟩
  | cons a t ih =>
    have h1 := (ih (max init a)).1
    have h2 := (ih (max init a)).2
    refine ⟨le_trans (le_max_left _ _) h1, ?_⟩
    intro y hy
    rcases List.mem_cons.mp hy with rfl | hy
    · exact le_trans (le_max_right _ _) h1
    · exact h2 y hy

/-- Python `max` dominates every element of the list. -/
theorem le_pyMax (l : List ℚ) (y : ℚ) (hy : y ∈ l) : y ≤ pyMax l :=
  (foldl_max_bounds l (l.headD 0)).2 y hy

/-- Membership in a fold that concatenates per-row lists comes from one of
the rows. -/
theorem mem_foldr_append {α β : Type} (f : β → List α) (L : List β) (x : α)
    (hx : x ∈ L.foldr (fun b acc => f b ++ acc) []) : ∃ b ∈ L, x ∈ f b := by
  induction L with
  | nil => simp at hx
  | cons b t ih =>
    rcases List.mem_append.mp hx with h | h
    · exact ⟨b, List.mem_cons_self b t, h⟩
    · obtain ⟨c, hc, hxc⟩ := ih h
      exact ⟨c, List.mem_cons_of_mem _ hc, hxc⟩

/-- The row contents of the "rw" configuration, fully enumerated. -/
theorem rowWidths_rw (p : LayoutParams) :
    rowWidths p rw =
      [[p.w_clk_buf_driver], [p.w_inv, p.w_and2], [p.w_and2],
       [p.w_sen_and3], [p.w_inv, p.w_wen_and],
       [p.w_nand2, p.w_p_en_bar_driver], [p.w_wl_en_and, p.w_wl_en_driver],
       [p.w_nand2], [p.w_nand2]] := rfl

/-- The row contents of the "r" configuration, fully enumerated. -/
theorem rowWidths_r (p : LayoutParams) :
    rowWidths p r =
      [[p.w_clk_buf_driver], [p.w_inv, p.w_and2], [p.w_and2],
       [p.w_sen_and3],
       [p.w_nand2, p.w_p_en_bar_driver], [p.w_wl_en_and, p.w_wl_en_driver],
       [p.w_nand2], [p.w_nand2]] := rfl

/-- The row contents of the "w" configuration, fully enumerated. -/
theorem rowWidths_w (p : LayoutParams) :
    rowWidths p w =
      [[p.w_clk_buf_driver], [p.w_inv, p.w_and2], [p.w_and2],
       [p.w_inv, p.w_wen_and],
       [p.w_nand2, p.w_p_en_bar_driver], [p.w_wl_en_and, p.w_wl_en_driver],
       [p.w_nand2], [p.w_nand2]] := rfl

/-- For nonnegative placement inputs, every cell width appearing in any row
is nonnegative. -/
theorem rowWidths_nonneg (p : LayoutParams) (pt : PortType) (hp : p.Nonneg) :
    ∀ row ∈ rowWidths p pt, ∀ x ∈ row, 0 ≤ x := by
  obtain ⟨hdff, hpitch, h1, h2, h3, h4, h5, h6, h7, h8, h9, h10⟩ := hp
  intro row hrow x hx
  cases pt
  · rw [rowWidths_rw] at hrow
    fin_cases hrow <;> fin_cases hx <;> assumption
  · rw [rowWidths_r] at hrow
    fin_cases hrow <;> fin_cases hx <;> assumption
  · rw [rowWidths_w] at hrow
    fin_cases hrow <;> fin_cases hx <;> assumption

end ControlLogicDelay

namespace ControlLogicDelay

open PortType

/-- Claim C6: For row_count=4, words_per_row=1, word_size=9, port_type=rw, the
netlist has exactly the control input pins `csb` and `web` (control-signal
count 2), a control storage array with at least 2 storage elements, and an
output pin list containing `s_en`, `w_en`, `p_en_bar`, `wl_en`, `clk_buf`. -/
theorem c6_rw_scenario :
    let c : Config := ⟨4, 1, 9, none, rw⟩
    inputList c.port_type = ["csb", "web"] ∧
    numControlSignals c.port_type = 2 ∧
    2 ≤ ctrlDffArrayStorageCount c.port_type ∧
    "s_en" ∈ outputList c.port_type ∧
    "w_en" ∈ outputList c.port_type ∧
    "p_en_bar" ∈ outputList c.port_type ∧
    "wl_en" ∈ outputList c.port_type ∧
    "clk_buf" ∈ outputList c.port_type := by
  refine ⟨rfl, rfl, by decide, ?_, ?_, ?_, ?_, ?_⟩ <;> decide

/-- Claim C7: For port_type "r", the synthesized module has no write-enable
related pin or instance: neither `web` nor `w_en` occurs among the module
pins, no instance connection mentions `w_en`, and neither the write-enable
AND gate nor its helper inverter is created. -/
theorem c7_readonly_no_write_enable :
    "web" ∉ pinNames r ∧
    "w_en" ∉ pinNames r ∧
    "and_w_en" ∉ instanceNames r ∧
    "inv_glitch3_bar" ∉ instanceNames r ∧
    ∀ i ∈ instanceList r, "w_en" ∉ i.conns := by
  refine ⟨by decide, by decide, by decide, by decide, ?_⟩
  decide

/-- Claim C10: Netlist creation is deterministic: identical configurations give
pin lists and instance/connection lists with identical names in identical
order. -/
theorem c10_netlist_deterministic (c₁ c₂ : Config) (h : c₁ = c₂) :
    create_netlist c₁ = create_netlist c₂ := by
  rw [h]

/-- Witness for C10 at a concrete configuration. -/
theorem c10_netlist_deterministic_witness :
    create_netlist ⟨4, 1, 9, none, rw⟩ = create_netlist ⟨4, 1, 9, none, rw⟩ :=
  c10_netlist_deterministic ⟨4, 1, 9, none, rw⟩ ⟨4, 1, 9, none, rw⟩ rfl

/-- Claim C1: whenever layout is requested, layout generation raises an
unhandled NameError before completing for every port type: `create_layout`
calls `route_all`, which unconditionally calls `route_delay`, whose body
references the undefined name `slef`; routing and verification never
complete. -/
theorem c1_layout_name_error (pt : PortType) :
    route_all pt = Except.error (PyErr.nameError "slef") ∧
    create_layout pt = Except.error (PyErr.nameError "slef") := by
  cases pt <;> exact ⟨rfl, rfl⟩

/-- Claim C8: for every required delay and fanout (fanouts and the inverter
parasitic delay being nonnegative quantities), the stage count is a positive
integer: exactly 1 when the required delay is at most `3 + pinv`, and
`ceil(required / (fanout + 1 + pinv))` (which is at least 1) otherwise. -/
theorem c8_stage_count_positive (pinv required_delay fanout : ℚ)
    (hp : 0 ≤ pinv) (hf : 0 ≤ fanout) :
    1 ≤ calculate_stages_with_fixed_fanout pinv required_delay fanout ∧
    (required_delay ≤ 3 + pinv →
      calculate_stages_with_fixed_fanout pinv required_delay fanout = 1) ∧
    (3 + pinv < required_delay →
      calculate_stages_with_fixed_fanout pinv required_delay fanout =
        ⌈required_delay / (fanout + 1 + pinv)⌉) := by
  unfold calculate_stages_with_fixed_fanout
  by_cases hle : required_delay ≤ 3 + pinv
  · refine ⟨by simp [hle], fun _ => by simp [hle], fun hlt => absurd hlt (by linarith)⟩
  · push_neg at hle
    have hr : 0 < required_delay := by linarith
    have hd : 0 < fanout + 1 + pinv := by linarith
    have hceil : 0 < ⌈required_delay / (fanout + 1 + pinv)⌉ :=
      Int.ceil_pos.mpr (div_pos hr hd)
    refine ⟨?_, fun hc => absurd hc (by linarith), fun _ => by simp [not_le.mpr hle]⟩
    simp only [not_le.mpr hle, if_false]
    omega

/-- Witness for C8 at pinv = 0, required delay = 10, fanout = 3. -/
theorem c8_stage_count_positive_witness :
    1 ≤ calculate_stages_with_fixed_fanout 0 10 3 :=
  (c8_stage_count_positive 0 10 3 (by norm_num) (by norm_num)).1

/-- Claim C9: even rows get y-offset `row * h` with identity orientation and
odd rows get the mirrored-about-x orientation with y-offset `(row + 1) * h`
(one compensating row height); `place_util` places an instance at the given
x offset and returns that instance's right edge as the next x offset. -/
theorem c9_row_offsets (h x w : ℚ) (r row : Nat) :
    get_offset h (2 * r) = (((2 * r : Nat) : ℚ) * h, Orient.R0) ∧
    get_offset h (2 * r + 1) = (((2 * r + 1 + 1 : Nat) : ℚ) * h, Orient.MX) ∧
    (place_util h x row w).1.x = x ∧
    (place_util h x row w).1.y = (get_offset h row).1 ∧
    (place_util h x row w).1.mirror = (get_offset h row).2 ∧
    (place_util h x row w).2 = (place_util h x row w).1.rx := by
  refine ⟨?_, ?_, rfl, rfl, rfl, rfl⟩
  · simp [get_offset, Nat.mul_mod_right]
  · have hodd : (2 * r + 1) % 2 = 1 := by omega
    simp only [get_offset, hodd]
    norm_num
    ring

/-- Counterexample to C2: at num_rows = 16, words_per_row = 2, word_size = 8,
no spare columns, port "rw" (power-of-two dimensions), the code drives
`log2(32) + log2(2) + 8 + 0 + 2 = 16` flops from the clock buffer, while the
claimed formula `ceil(log2 16) + ceil(log2 2) + 8 + 0 + 2` gives 15. -/
theorem c2_counterexample :
    num_flops ⟨16, 2, 8, none, rw⟩ = 16 ∧
    num_flops_spec ⟨16, 2, 8, none, rw⟩ = 15 ∧
    num_flops ⟨16, 2, 8, none, rw⟩ ≠ num_flops_spec ⟨16, 2, 8, none, rw⟩ := by
  have h32 : Nat.log 2 32 = 5 := by
    rw [show (32 : Nat) = 2 ^ 5 from rfl]
    exact Nat.log_pow one_lt_two 5
  have h2 : Nat.log 2 2 = 1 := by
    rw [show (2 : Nat) = 2 ^ 1 from rfl]
    exact Nat.log_pow one_lt_two 1
  have hc16 : Nat.clog 2 16 = 4 := by
    rw [show (16 : Nat) = 2 ^ 4 from rfl]
    exact Nat.clog_pow 2 4 one_lt_two
  have hc2 : Nat.clog 2 2 = 1 := by
    rw [show (2 : Nat) = 2 ^ 1 from rfl]
    exact Nat.clog_pow 2 1 one_lt_two
  have e1 : num_flops ⟨16, 2, 8, none, rw⟩ = 16 := by
    norm_num [num_flops, addr_flops, Config.num_words, numSpareCols,
      numControlSignals, h32, h2]
  have e2 : num_flops_spec ⟨16, 2, 8, none, rw⟩ = 15 := by
    norm_num [num_flops_spec, numSpareCols, numControlSignals, hc16, hc2]
  exact ⟨e1, e2, by rw [e1, e2]; decide⟩

/-- Claim C2 (amended): for power-of-two dimensions, the number of flops the
clock buffer drives equals the claimed formula plus one extra
`log2(words_per_row)` term (the code adds `log2(num_words)` — which already
contains the column address bits — and then `log2(words_per_row)` again); in
particular the two agree exactly when `words_per_row = 1`. -/
theorem c2_amended_flop_count (a b ws : Nat) (sc : Option Nat) (pt : PortType) :
    num_flops ⟨2 ^ a, 2 ^ b, ws, sc, pt⟩ =
      num_flops_spec ⟨2 ^ a, 2 ^ b, ws, sc, pt⟩ + Nat.log 2 (2 ^ b) ∧
    num_flops ⟨2 ^ a, 1, ws, sc, pt⟩ = num_flops_spec ⟨2 ^ a, 1, ws, sc, pt⟩ := by
  have hab : Nat.log 2 (2 ^ a * 2 ^ b) = a + b := by
    rw [← pow_add]
    exact Nat.log_pow one_lt_two (a + b)
  have hb : Nat.log 2 (2 ^ b) = b := Nat.log_pow one_lt_two b
  have hca : Nat.clog 2 (2 ^ a) = a := Nat.clog_pow 2 a one_lt_two
  have hcb : Nat.clog 2 (2 ^ b) = b := Nat.clog_pow 2 b one_lt_two
  have ha : Nat.log 2 (2 ^ a) = a := Nat.log_pow one_lt_two a
  constructor <;>
    · simp [num_flops, num_flops_spec, addr_flops, Config.num_words,
        hab, hb, hca, hcb, ha, Nat.log_one_right, Nat.clog_one_right]
      try omega

/-- Counterexample to C3: an inverting delay chain sizing whose computed
stage count `ceil(8 / 4) = 2` is even returns that even count itself, not
`stages + 1`: with pinv = 0, wl_delay = 8, sen_delay = 4, tolerance = 1,
previous stages 1 and previous fanout 3, the result is `(2, 3)`. -/
theorem c3_counterexample :
    get_dynamic_delay_chain_size ⟨0, 8, 4, 1⟩ 1 3 = some (2, 3) ∧
    (⌈(8 : ℚ) / (3 + 1 + 0)⌉ = 2 ∧ (2 : ℤ) % 2 = 0) ∧
    get_dynamic_delay_chain_size ⟨0, 8, 4, 1⟩ 1 3 ≠ some (3, 3) := by
  refine ⟨?_, ⟨by norm_num, rfl⟩, ?_⟩ <;>
    norm_num [get_dynamic_delay_chain_size]

/-- Claim C3 (amended): the invoked rounding forces an even stage count —
when the computed count is odd the result is the count plus one, and when it
is even the result is the count itself; the requirement that the configured
inverting delay chain have an odd stage count is enforced separately as a
fatal check in `add_modules`, which fails on every even configuration. -/
theorem c3_amended_even_forcing (ctx : DelayCtx) (ps pf required : ℚ)
    (s : ℤ) (f : ℚ)
    (hreq : required =
      ctx.wl_delay * ctx.wl_timing_tolerance
        - (ctx.sen_delay - (pf + 1 + ctx.pinv) * ps))
    (hres : get_dynamic_delay_chain_size ctx ps pf = some (s, f)) :
    s % 2 = 0 ∧ f = 3 ∧
    (⌈required / (3 + 1 + ctx.pinv)⌉ % 2 = 1 →
      s = ⌈required / (3 + 1 + ctx.pinv)⌉ + 1) ∧
    (⌈required / (3 + 1 + ctx.pinv)⌉ % 2 = 0 →
      s = ⌈required / (3 + 1 + ctx.pinv)⌉) ∧
    (∀ n : Nat, n % 2 = 0 → delay_chain_stages_check n = false) := by
  simp only [get_dynamic_delay_chain_size] at hres
  rw [← hreq] at hres
  by_cases hpos : 0 < required
  · rw [if_pos hpos] at hres
    simp only [Option.some.injEq, Prod.mk.injEq] at hres
    obtain ⟨hs, hfv⟩ := hres
    set c0 := ⌈required / (3 + 1 + ctx.pinv)⌉ with hc0
    by_cases hodd : c0 % 2 = 1
    · rw [if_pos hodd] at hs
      exact ⟨by omega, hfv.symm, fun _ => hs.symm, fun h0 => by omega,
        fun n hn => by simp [delay_chain_stages_check, hn]⟩
    · rw [if_neg hodd] at hs
      have h0 : c0 % 2 = 0 := by omega
      exact ⟨by omega, hfv.symm, fun h1 => by omega, fun _ => hs.symm,
        fun n hn => by simp [delay_chain_stages_check, hn]⟩
  · rw [if_neg hpos] at hres
    exact absurd hres (by simp)

/-- Counterexample to C4: a placed instance can extend past the recorded
module width. With every cell width and pitch 1 but a delay chain of width
100, the write-only ("w") module records width 16 while the placed delay
chain's right edge is 100: the delay chain is excluded from the width
maximum for "w" ports. -/
theorem c4_counterexample :
    delayRX ⟨1, 1, 1, 1, 1, 1, 1, 1, 1, 1, 1, 100⟩ ∈
      placedRX ⟨1, 1, 1, 1, 1, 1, 1, 1, 1, 1, 1, 100⟩ w ∧
    moduleWidth ⟨1, 1, 1, 1, 1, 1, 1, 1, 1, 1, 1, 100⟩ w = 16 ∧
    ¬ delayRX ⟨1, 1, 1, 1, 1, 1, 1, 1, 1, 1, 1, 100⟩ ≤
        moduleWidth ⟨1, 1, 1, 1, 1, 1, 1, 1, 1, 1, 1, 100⟩ w := by
  have hne : ¬(w = rw ∨ w = r) := by decide
  have hcx : control_x_offset ⟨1, 1, 1, 1, 1, 1, 1, 1, 1, 1, 1, 100⟩ w = 13 := by
    unfold control_x_offset internal_bus_width
    rw [show internalBusList w =
      ["glitch2", "glitch3", "delay1", "delay2", "delay3", "delay4", "delay5",
       "gated_clk_bar", "gated_clk_buf", "clk_buf", "cs"] from rfl]
    norm_num
  have hends : rowEndRX ⟨1, 1, 1, 1, 1, 1, 1, 1, 1, 1, 1, 100⟩ w =
      [14, 15, 14, 15, 15, 15, 14, 14] := by
    unfold rowEndRX
    rw [rowWidths_w]
    simp only [List.map_cons, List.map_nil, List.sum_cons, List.sum_nil, hcx]
    norm_num
  have hpy : pyMax (rowEndRX ⟨1, 1, 1, 1, 1, 1, 1, 1, 1, 1, 1, 100⟩ w) = 15 := by
    rw [hends]
    norm_num [pyMax, List.foldl, List.headD, max_def]
  have hw : moduleWidth ⟨1, 1, 1, 1, 1, 1, 1, 1, 1, 1, 1, 100⟩ w = 16 := by
    simp only [moduleWidth, hne, if_false, hpy]
    norm_num
  refine ⟨by simp [placedRX], hw, ?_⟩
  rw [hw]
  norm_num [delayRX]

/-- Claim C4 (amended): for nonnegative cell widths and pitches, no placed
instance extends past the recorded module width for port types "rw" and "r";
for port type "w" the same holds for the flop array and every row instance,
but the delay chain is excluded from the width maximum (and can exceed it,
as the counterexample shows). -/
theorem c4_amended_width_covers (p : LayoutParams) (pt : PortType)
    (hp : p.Nonneg) :
    (∀ x ∈ dffRX p :: allRowInstRX p pt, x ≤ moduleWidth p pt) ∧
    ((pt = rw ∨ pt = r) → ∀ x ∈ placedRX p pt, x ≤ moduleWidth p pt) := by
  have hpitch : 0 ≤ p.m2_pitch := hp.2.1
  have hclk : 0 ≤ p.w_clk_buf_driver := hp.2.2.1
  have hbus : 0 ≤ internal_bus_width p pt :=
    mul_nonneg (by positivity) hpitch
  have hrowsNN := rowWidths_nonneg p pt hp
  -- the maximal row-end right edge is below the module width
  have hW0 : pyMax (rowEndRX p pt) ≤ moduleWidth p pt := by
    unfold moduleWidth
    by_cases hcase : pt = rw ∨ pt = r
    · simp only [hcase, if_true]
      have := le_max_right (delayRX p) (pyMax (rowEndRX p pt))
      linarith
    · simp only [hcase, if_false]
      linarith
  -- every row-end right edge is below the module width
  have hEnd : ∀ row ∈ rowWidths p pt,
      control_x_offset p pt + row.sum ≤ moduleWidth p pt := by
    intro row hrow
    exact le_trans
      (le_pyMax (rowEndRX p pt) _
        (List.mem_map_of_mem (fun row => control_x_offset p pt + List.sum row) hrow))
      hW0
  -- every row instance is bounded by its row end
  have hInst : ∀ x ∈ allRowInstRX p pt, x ≤ moduleWidth p pt := by
    intro x hx
    obtain ⟨row, hrow, hxrow⟩ := mem_foldr_append _ _ _ hx
    exact le_trans (rowRX_le_end row _ (hrowsNN row hrow) x hxrow) (hEnd row hrow)
  -- the flop array ends before the first row does
  have hdffMem : [p.w_clk_buf_driver] ∈ rowWidths p pt := by
    cases pt <;> simp [rowWidths]
  have hdff : dffRX p ≤ moduleWidth p pt := by
    have h1 : dffRX p ≤ control_x_offset p pt + List.sum [p.w_clk_buf_driver] := by
      unfold dffRX control_x_offset
      simp only [List.sum_cons, List.sum_nil]
      linarith
    exact le_trans h1 (hEnd _ hdffMem)
  refine ⟨?_, ?_⟩
  · intro x hx
    rcases List.mem_cons.mp hx with rfl | hx
    · exact hdff
    · exact hInst x hx
  · intro hcase x hx
    rcases List.mem_cons.mp hx with rfl | hx
    · exact hdff
    · rcases List.mem_append.mp hx with hx | hx
      · exact hInst x hx
      · have hxd : x = delayRX p := by simpa using hx
        subst hxd
        unfold moduleWidth
        simp only [hcase, if_true]
        have := le_max_left (delayRX p) (pyMax (rowEndRX p pt))
        linarith

/-- Witness for the amended C4 with all widths and pitches 1 on a read-write
port. -/
theorem c4_amended_width_covers_witness :
    (∀ x ∈ dffRX ⟨1, 1, 1, 1, 1, 1, 1, 1, 1, 1, 1, 1⟩ ::
        allRowInstRX ⟨1, 1, 1, 1, 1, 1, 1, 1, 1, 1, 1, 1⟩ rw,
      x ≤ moduleWidth ⟨1, 1, 1, 1, 1, 1, 1, 1, 1, 1, 1, 1⟩ rw) ∧
    ((rw = rw ∨ rw = r) →
      ∀ x ∈ placedRX ⟨1, 1, 1, 1, 1, 1, 1, 1, 1, 1, 1, 1⟩ rw,
        x ≤ moduleWidth ⟨1, 1, 1, 1, 1, 1, 1, 1, 1, 1, 1, 1⟩ rw) :=
  c4_amended_width_covers ⟨1, 1, 1, 1, 1, 1, 1, 1, 1, 1, 1, 1⟩ rw
    (by norm_num [LayoutParams.Nonneg])

/-- Counterexample to C5: supply routing does run last, but it does not walk
the supply pins of every placed instance: on a read-write port the inverter
`inv_clk_bar` is placed, yet it is not among the row-end instances whose
`vdd`/`gnd` pins `route_supply` connects to the rail. -/
theorem c5_counterexample :
    (route_all_steps rw).getLast? = some RouteStep.supply ∧
    "inv_clk_bar" ∈ placedInstNames rw ∧
    "inv_clk_bar" ∉ rowEndInstNames rw ∧
    "inv_clk_bar" ∉ supplyPinCopiedInstNames := by
  refine ⟨?_, ?_, ?_, ?_⟩ <;> decide

/-- Claim C5 (amended): supply routing runs last among the routing steps of
`route_all` for every port type, and it walks the `vdd`/`gnd` pins of the
row-end instance of each logic row only (tying them to the rail at the
maximal row-end x location), copying the delay chain's and flop array's
supply pins as layout pins; instances that are not row enders are not walked
by this step. -/
theorem c5_amended_supply_last (pt : PortType) :
    (route_all_steps pt).getLast? = some RouteStep.supply ∧
    (∀ n ∈ rowEndInstNames pt, n ∈ placedInstNames pt) ∧
    "multi_delay_chain" ∈ supplyPinCopiedInstNames ∧
    "ctrl_dffs" ∈ supplyPinCopiedInstNames := by
  cases pt <;> exact ⟨by decide, by decide, by decide, by decide⟩

/-- Witness for the amended C3 at the concrete sizing of the
counterexample. -/
theorem c3_amended_even_forcing_witness :
    (2 : ℤ) % 2 = 0 ∧ (3 : ℚ) = 3 ∧
    (⌈(8 : ℚ) / (3 + 1 + 0)⌉ % 2 = 1 → (2 : ℤ) = ⌈(8 : ℚ) / (3 + 1 + 0)⌉ + 1) ∧
    (⌈(8 : ℚ) / (3 + 1 + 0)⌉ % 2 = 0 → (2 : ℤ) = ⌈(8 : ℚ) / (3 + 1 + 0)⌉) ∧
    (∀ n : Nat, n % 2 = 0 → delay_chain_stages_check n = false) := by
  have hreq : (8 : ℚ) =
      (8 : ℚ) * 1 - (4 - ((3 : ℚ) + 1 + 0) * 1) := by norm_num
  have hres : get_dynamic_delay_chain_size ⟨0, 8, 4, 1⟩ 1 3 = some (2, 3) := by
    norm_num [get_dynamic_delay_chain_size]
  exact c3_amended_even_forcing ⟨0, 8, 4, 1⟩ 1 3 8 2 3 hreq hres

end ControlLogicDelay
